import Mathlib

/-!
# Verification of the Eleventy site configuration (`src/eleventy.config.js`)

A shallow embedding of the filters, transforms, compile steps and
collection builders registered by `src/eleventy.config.js`, together with
theorems settling the specification's claims about them.

External npm libraries (postcss, esbuild, html-minifier, markdown-it,
remove-markdown, pretty-data, linkedom, the ECMAScript `Date`/`Intl`
built-ins) are not part of this repository; where a claim only depends on
how the configuration wires a library in, the library is an abstract
function parameter.  Where a claim depends on a library's own documented
behaviour, a definition modelling that behaviour carries a doc comment
saying what it models.
-/

namespace Eleventy

/-! ## The `absolute` filter (config lines 193–204)

```js
config.addFilter('absolute', (content, article) => {
  const reg = /(src="[^(https://)])|(src="\/)|(href="[^(https://)])|(href="\/)/g;
  const prefix = global.domain + article.url;
  return content.replace(reg, (match) => {
    if (match === 'src="/' || match === 'href="/') {
      match = match.slice(0, -1);
      return match + prefix;
    } else {
      return match.slice(0, -1) + prefix + match.slice(-1);
    }
  });
});
```

The character class `[^(https://)]` is the set of characters other than
`(`, `h`, `t`, `p`, `s`, `:`, `/`, `)`.  A global `String.replace` scans
left to right, trying the four alternatives in order at each position,
consuming a match and continuing after it, or advancing one character when
no alternative matches. -/

/-- Membership in the regex character class `(https://)` — the characters
excluded by the negated class `[^(https://)]`. -/
def inClass (c : Char) : Bool :=
  c = '(' || c = 'h' || c = 't' || c = 'p' || c = 's' || c = ':' || c = '/' || c = ')'

/-- The scan of `content.replace(reg, ...)` in the `absolute` filter, over
the character list of the content, with `p` the characters of
`global.domain + article.url`.

At each position: `src="` followed by `/` matches the alternative
`(src="\/)` and is replaced by `src="` + prefix; `src="` followed by a
character outside the class matches `(src="[^(https://)])` and is replaced
by `src="` + prefix + that character; `src="` followed by a class
character other than `/` matches nothing, and the engine advances one
position at a time — since no alternative can begin at the intervening
characters `r`, `c`/`e`, `f`, `=`, `"` (every alternative starts with `s`
or `h`), this is the same as emitting them and resuming the scan at the
character after the quote.  Likewise for `href="`. -/
def absoluteGo (p : List Char) : List Char → List Char
  | 's' :: 'r' :: 'c' :: '=' :: '"' :: c :: rest =>
    if c = '/' then
      's' :: 'r' :: 'c' :: '=' :: '"' :: (p ++ absoluteGo p rest)
    else if inClass c then
      's' :: 'r' :: 'c' :: '=' :: '"' :: absoluteGo p (c :: rest)
    else
      's' :: 'r' :: 'c' :: '=' :: '"' :: (p ++ (c :: absoluteGo p rest))
  | 'h' :: 'r' :: 'e' :: 'f' :: '=' :: '"' :: c :: rest =>
    if c = '/' then
      'h' :: 'r' :: 'e' :: 'f' :: '=' :: '"' :: (p ++ absoluteGo p rest)
    else if inClass c then
      'h' :: 'r' :: 'e' :: 'f' :: '=' :: '"' :: absoluteGo p (c :: rest)
    else
      'h' :: 'r' :: 'e' :: 'f' :: '=' :: '"' :: (p ++ (c :: absoluteGo p rest))
  | c :: rest => c :: absoluteGo p rest
  | [] => []

/-- The `absolute` filter: `prefix = global.domain + article.url`, then the
global regex replace over the content. -/
def absolute (domain url content : String) : String :=
  String.mk (absoluteGo (domain.data ++ url.data) content.data)

/-! ## Collections (config lines 24–45)

```js
const collections = {
  'articles': 'src/articles/*/index.md',
  'pages': 'src/pages/!(404)/index.njk',
};
config.addCollection('articles', (collectionApi) => {
  return collectionApi.getFilteredByGlob(collections.articles)
    .filter(article => article.data.draft !== true);
});
config.addCollection('sitemap', (collectionApi) => {
  return collectionApi.getFilteredByGlob([collections.articles, collections.pages])
    .filter(article => article.data.draft !== true);
});
```
-/

/-- The two glob patterns of the `collections` record:
`articles = 'src/articles/*/index.md'` and
`pages = 'src/pages/!(404)/index.njk'`. -/
inductive Glob
  | articles
  | pages
  deriving DecidableEq, Repr

/-- A content item as the collection builders see it: which of the two
configured glob patterns its input path matches, its front-matter `draft`
value (`none` when the flag is absent), and an identifier distinguishing
distinct source files. -/
structure Item where
  id : Nat
  matchesArticles : Bool
  matchesPages : Bool
  draft : Option Bool
  deriving DecidableEq, Repr

/-- Whether an item's input path matches a given glob pattern. -/
def Item.matchesGlob (it : Item) : Glob → Bool
  | .articles => it.matchesArticles
  | .pages => it.matchesPages

/-- `collectionApi.getFilteredByGlob(globs)`: the items of the collection
API state whose input path matches at least one of the globs, each
appearing as often as it appears in the state (once per source file). -/
def getFilteredByGlob (api : List Item) (globs : List Glob) : List Item :=
  api.filter (fun it => globs.any (fun g => it.matchesGlob g))

/-- The `article.data.draft !== true` predicate used by both builders:
keeps an item unless its `draft` front-matter value is strictly `true`. -/
def notDraft (it : Item) : Bool :=
  !(it.draft == some true)

/-- The `articles` collection builder. -/
def articlesCollection (api : List Item) : List Item :=
  (getFilteredByGlob api [Glob.articles]).filter notDraft

/-- The `sitemap` collection builder. -/
def sitemapCollection (api : List Item) : List Item :=
  (getFilteredByGlob api [Glob.articles, Glob.pages]).filter notDraft

/-! ## HTML transforms (config lines 65–101) -/

/-- `String.prototype.endsWith` as the transforms call it
(`path.endsWith('.html')`, `path.endsWith('.xml')`): whether the suffix's
characters end the string's characters. -/
def endsWith (s suffix : String) : Bool :=
  suffix.data.isSuffixOf s.data

/-- The option record passed to `htmlMin.minify` by the `html-minify`
transform. -/
structure HtmlMinOptions where
  collapseBooleanAttributes : Bool
  collapseWhitespace : Bool
  decodeEntities : Bool
  includeAutoGeneratedTags : Bool
  removeComments : Bool
  deriving DecidableEq, Repr

/-- The `html-minify` transform: when the output path is present (truthy)
and ends in `.html`, delegate to the external `html-minifier` library
(`minify`, an abstract parameter here) with the five options written in
the source; otherwise return the content unchanged. -/
def htmlMinifyTransform (minify : String → HtmlMinOptions → String)
    (content : String) (path : Option String) : String :=
  match path with
  | some p =>
    if endsWith p ".html" then
      minify content
        { collapseBooleanAttributes := true
          collapseWhitespace := true
          decodeEntities := true
          includeAutoGeneratedTags := false
          removeComments := true }
    else content
  | none => content

/-- The `for (const transform of htmlTransforms) await transform(window,
content, path)` loop: each pass receives the window as mutated (and
awaited) by all prior passes, the original raw content and the output
path.  `W` stands for linkedom's window type; each pass mutating the
window in place is explicit state passing here. -/
def runPasses {W : Type} (passes : List (W → String → String → W))
    (w : W) (content path : String) : W :=
  passes.foldl (fun acc t => t acc content path) w

/-- The `html-transform` transform: when the output path is present and
ends in `.html`, parse the content into a window (`dom.parseHTML`,
abstract), run the registered passes over it in order, and serialise the
resulting document (`window.document.toString()`, abstract); otherwise
return the content unchanged. -/
def htmlTransform {W : Type} (parseHTML : String → W) (render : W → String)
    (passes : List (W → String → String → W))
    (content : String) (path : Option String) : String :=
  match path with
  | some p =>
    if endsWith p ".html" then
      render (runPasses passes (parseHTML content) content p)
    else content
  | none => content

/-! ## CSS and JS compile steps (config lines 105–173) -/

/-- The allow-list of CSS entry points, the `styles` array. -/
def styles : List String :=
  ["./src/styles/index.css", "./src/styles/light.css", "./src/styles/dark.css"]

/-- The `css` extension's `compile` step: a path outside the allow-list
yields no render function (`none` — Eleventy emits no output file); an
allow-listed path yields the content processed through the postcss chain
(`postcss-import`, `postcss-media-minmax`, `autoprefixer`, `postcss-csso`
— abstract here), which receives the content and the `from` path. -/
def cssCompile (postcssChain : String → String → String)
    (content path : String) : Option String :=
  if !(styles.contains path) then none
  else some (postcssChain content path)

/-- The `js` extension's `compile` step: any path other than
`./src/scripts/index.js` yields no render function; the entry point yields
the esbuild bundle (target es2020, minify, bundle — abstract here).
esbuild receives the path as its entry point; the content argument is not
consulted. -/
def jsCompile (esbuildBundle : String → String)
    (content path : String) : Option String :=
  if path ≠ "./src/scripts/index.js" then none
  else some (esbuildBundle path)

/-! ## XML minification (config lines 177–183) -/

/-- Whitespace as an XML minifier treats it. -/
def isWs (c : Char) : Bool :=
  c = ' ' || c = '\n' || c = '\t' || c = '\r'

/-- Modelled from the spec: `pd.xmlmin` of the external `pretty-data`
library (not part of this repository), described as minifying "losslessly
(whitespace-only reduction)": the whitespace standing between a closing
`>` and the `<` opening the next tag is dropped; every other character is
kept as is. -/
def xmlminChars : List Char → List Char
  | [] => []
  | c :: rest =>
    if c = '>' && (rest.dropWhile isWs).head? == some '<' then
      '>' :: xmlminChars (rest.dropWhile isWs)
    else
      c :: xmlminChars rest
termination_by l => l.length
decreasing_by
  · have := (List.dropWhile_sublist (l := rest) isWs).length_le
    simp only [List.length_cons]
    omega
  · simp

/-- Modelled from the spec: see `xmlminChars`. -/
def xmlmin (s : String) : String :=
  String.mk (xmlminChars s.data)

/-- The `xmlMin` transform: when the output path is present and ends in
`.xml`, delegate to the minifier; otherwise return the content
unchanged. -/
def xmlMinTransform (minifier : String → String) (content : String)
    (path : Option String) : String :=
  match path with
  | some p => if endsWith p ".xml" then minifier content else content
  | none => content

/-! ## Date filters (config lines 208–231) -/

/-- A value of the ECMAScript `Date` class as the date filters consult it:
a calendar date (the filters are applied to front-matter dates, which
parse to UTC midnight). -/
structure JSDate where
  year : Nat
  month : Nat
  day : Nat
  deriving DecidableEq, Repr

/-- English month names, models the ECMAScript `Intl` `en` locale used by
`toLocaleString('en', ...)`. -/
def monthNameEn (m : Nat) : String :=
  [ "January", "February", "March", "April", "May", "June", "July",
    "August", "September", "October", "November", "December"
  ].getD (m - 1) ""

/-- Models `value.toLocaleString('en', { dateStyle: 'long' })`, e.g.
`March 5, 2024` — the long form, which includes the year. -/
def formatLongEn (d : JSDate) : String :=
  monthNameEn d.month ++ " " ++ toString d.day ++ ", " ++ toString d.year

/-- Models `value.toLocaleString('en', { month: 'long', day: 'numeric' })`,
e.g. `March 5` — month and day only, no year. -/
def formatMonthDayEn (d : JSDate) : String :=
  monthNameEn d.month ++ " " ++ toString d.day

/-- The `dateShort` filter: `currentYear` is `new Date().getFullYear()`,
the calendar year at the time of the build; the long format is chosen
exactly when `articleYear < currentYear`. -/
def dateShort (currentYear : Nat) (value : JSDate) : String :=
  if value.year < currentYear then formatLongEn value
  else formatMonthDayEn value

/-- Left-pads a two-digit field of an ISO date. -/
def pad2 (n : Nat) : String :=
  if n < 10 then "0" ++ toString n else toString n

/-- Models `value.toISOString()` (ECMAScript, UTC) for a four-digit-year
midnight date: `YYYY-MM-DDT00:00:00.000Z`. -/
def toISOString (d : JSDate) : String :=
  toString d.year ++ "-" ++ pad2 d.month ++ "-" ++ pad2 d.day
    ++ "T00:00:00.000Z"

/-- `String.prototype.split` on a single-character separator, modelled
over the character lists. -/
def splitChar (sep : Char) : List Char → List (List Char)
  | [] => [[]]
  | c :: rest =>
    let r := splitChar sep rest
    if c = sep then [] :: r
    else
      match r with
      | [] => [[c]]
      | h :: t => (c :: h) :: t

/-- The `dateISO` filter: `value.toISOString().split('T')[0]`. -/
def dateISO (value : JSDate) : String :=
  String.mk ((splitChar 'T' (toISOString value).data).headD [])

/-! ## Markdown filters (config lines 49–59)

The `markdown`, `markdownInline` and `markdownRemove` filters delegate to
the external `markdown-it` and `remove-markdown` libraries, which are not
part of this repository; the definitions below model their documented
behaviour on the emphasis constructs the spec describes. -/

/-- Splits a character list at the first occurrence of `delim`, returning
the part before it and the part after it. -/
def splitAtDelim (delim : List Char) : List Char → Option (List Char × List Char)
  | [] => none
  | c :: rest =>
    if delim.isPrefixOf (c :: rest) then
      some ([], (c :: rest).drop delim.length)
    else
      match splitAtDelim delim rest with
      | some (pre, post) => some (c :: pre, post)
      | none => none

/-- Modelled from the spec: the external `markdown-it` inline renderer on
emphasis — `**…**` becomes `<strong>…</strong>`, `_…_` becomes
`<em>…</em>`, an unclosed marker stays literal, and every other character
passes through.  `fuel` bounds the recursion and exceeds the input length
at every use. -/
def renderInlineAux : Nat → List Char → List Char
  | 0, l => l
  | _ + 1, [] => []
  | fuel + 1, '*' :: '*' :: rest =>
    match splitAtDelim ['*', '*'] rest with
    | some (inner, rest2) =>
      "<strong>".data ++ renderInlineAux fuel inner ++ "</strong>".data
        ++ renderInlineAux fuel rest2
    | none => '*' :: '*' :: renderInlineAux fuel rest
  | fuel + 1, '_' :: rest =>
    match splitAtDelim ['_'] rest with
    | some (inner, rest2) =>
      "<em>".data ++ renderInlineAux fuel inner ++ "</em>".data
        ++ renderInlineAux fuel rest2
    | none => '_' :: renderInlineAux fuel rest
  | fuel + 1, c :: rest => c :: renderInlineAux fuel rest

/-- The `markdownInline` filter: `markdown.renderInline(value)` — inline
markup, no enclosing block element. -/
def markdownInline (s : String) : String :=
  String.mk (renderInlineAux s.data.length s.data)

/-- The `markdown` filter: `markdown.render(value)` — the same inline
markup wrapped in a paragraph element (markdown-it terminates the
paragraph with a newline). -/
def markdownRender (s : String) : String :=
  "<p>" ++ markdownInline s ++ "</p>\n"

/-- Modelled from the spec: the external `remove-markdown` library on
emphasis — the `**` and `_` markers are stripped, the delimited text and
every other character are kept. -/
def removeMdAux : Nat → List Char → List Char
  | 0, l => l
  | _ + 1, [] => []
  | fuel + 1, '*' :: '*' :: rest =>
    match splitAtDelim ['*', '*'] rest with
    | some (inner, rest2) =>
      removeMdAux fuel inner ++ removeMdAux fuel rest2
    | none => '*' :: '*' :: removeMdAux fuel rest
  | fuel + 1, '_' :: rest =>
    match splitAtDelim ['_'] rest with
    | some (inner, rest2) =>
      removeMdAux fuel inner ++ removeMdAux fuel rest2
    | none => '_' :: removeMdAux fuel rest
  | fuel + 1, c :: rest => c :: removeMdAux fuel rest

/-- The `markdownRemove` filter: `removeMarkdown(value)` — plain text with
no residual Markdown syntax. -/
def markdownRemove (s : String) : String :=
  String.mk (removeMdAux s.data.length s.data)

end Eleventy

/-! ## Theorems -/

namespace Eleventy

/-- A step of the scan at a root-relative `src` attribute: the match
`src="/` is replaced by `src="` followed by the prefix, and the scan
continues after the consumed `/`. -/
theorem absoluteGo_src_root (p rest : List Char) :
    absoluteGo p ('s' :: 'r' :: 'c' :: '=' :: '"' :: '/' :: rest)
      = 's' :: 'r' :: 'c' :: '=' :: '"' :: (p ++ absoluteGo p rest) := by
  simp [absoluteGo]

theorem absoluteGo_root_img (p t : List Char) :
    absoluteGo p ("src=\"/img.png\"".data ++ t)
      = "src=\"".data ++ p ++ ("img.png\"".data ++ absoluteGo p t) := by
  simp [absoluteGo]

theorem absoluteGo_https (p t : List Char) :
    absoluteGo p ("src=\"https://".data ++ t)
      = "src=\"https://".data ++ absoluteGo p t := by
  simp [absoluteGo, inClass]

end Eleventy

/-- C1 counterexample: with domain `https://example.com` and article URL
`/posts/a/`, the `absolute` filter rewrites `src="/img.png"` to
`src="https://example.com/posts/a/img.png"` — the prefix appended after
removing the `/` is `domain + article.url`, not the domain alone — so the
output is not the `src="https://example.com/img.png"` the claim states. -/
theorem absolute_root_relative_counterexample :
    Eleventy.absolute "https://example.com" "/posts/a/" "src=\"/img.png\""
        = "src=\"https://example.com/posts/a/img.png\""
      ∧ Eleventy.absolute "https://example.com" "/posts/a/" "src=\"/img.png\""
        ≠ "src=\"https://example.com/img.png\"" := by
  constructor <;> decide

/-- C1 (amended): with configured domain `https://example.com` and current
article URL `/posts/a/`, for every remaining content `t`, an occurrence of
the attribute `src="/img.png"` is rewritten to
`src="https://example.com/posts/a/img.png"` — the slash is dropped and the
concatenation of the domain and the article URL is inserted after the
opening quote — and an occurrence of an attribute whose value starts with
an absolute `https://` URL is left unchanged by the filter (the scan
continues after it). -/
theorem absolute_rewrites_root_relative_keeps_https (t : String) :
    Eleventy.absolute "https://example.com" "/posts/a/" ("src=\"/img.png\"" ++ t)
        = "src=\"https://example.com/posts/a/img.png\""
            ++ Eleventy.absolute "https://example.com" "/posts/a/" t
      ∧ Eleventy.absolute "https://example.com" "/posts/a/" ("src=\"https://" ++ t)
        = "src=\"https://"
            ++ Eleventy.absolute "https://example.com" "/posts/a/" t := by
  refine ⟨?_, ?_⟩ <;>
  · simp only [Eleventy.absolute, String.ext_iff, String.data_append]
    simp [Eleventy.absoluteGo, Eleventy.inClass]

/-- C2: for every collection API state and item, an item whose `draft`
front matter is `true` belongs to neither the `articles` nor the `sitemap`
collection; and an item whose `draft` is not `true` and which occurs once
in the API state appears exactly once in each collection whose globs it
matches (`articles` when it matches the articles glob, `sitemap` when it
matches the articles or the pages glob). -/
theorem collections_exclude_drafts_include_once
    (api : List Eleventy.Item) (it : Eleventy.Item) :
    (it.draft = some true →
      it ∉ Eleventy.articlesCollection api ∧ it ∉ Eleventy.sitemapCollection api)
    ∧ (it.draft ≠ some true → api.count it = 1 →
        (it.matchesArticles = true →
          (Eleventy.articlesCollection api).count it = 1)
        ∧ (it.matchesArticles = true ∨ it.matchesPages = true →
          (Eleventy.sitemapCollection api).count it = 1)) := by
  refine ⟨fun h => ⟨fun hm => ?_, fun hm => ?_⟩,
    fun hnd hcount => ⟨fun hma => ?_, fun hmp => ?_⟩⟩
  · simp [Eleventy.articlesCollection, Eleventy.getFilteredByGlob,
      Eleventy.notDraft, List.mem_filter, h] at hm
  · simp [Eleventy.sitemapCollection, Eleventy.getFilteredByGlob,
      Eleventy.notDraft, List.mem_filter, h] at hm
  · rw [Eleventy.articlesCollection, Eleventy.getFilteredByGlob,
      List.filter_filter, List.count_filter, hcount]
    simp [Eleventy.notDraft, Eleventy.Item.matchesGlob, hma, hnd]
  · rw [Eleventy.sitemapCollection, Eleventy.getFilteredByGlob,
      List.filter_filter, List.count_filter, hcount]
    rcases hmp with hm | hm <;>
      simp [Eleventy.notDraft, Eleventy.Item.matchesGlob, hm, hnd]

/-- C2 witness: a draft item is excluded from `articles`, and a non-draft
item occurring once in the API state appears exactly once in `articles`. -/
theorem collections_exclude_drafts_witness :
    ((⟨0, true, true, some true⟩ : Eleventy.Item) ∉
        Eleventy.articlesCollection [⟨0, true, true, some true⟩])
    ∧ (Eleventy.articlesCollection [⟨1, true, false, none⟩]).count
        ⟨1, true, false, none⟩ = 1 :=
  ⟨((collections_exclude_drafts_include_once
      [⟨0, true, true, some true⟩] ⟨0, true, true, some true⟩).1 rfl).1,
   ((collections_exclude_drafts_include_once
      [⟨1, true, false, none⟩] ⟨1, true, false, none⟩).2
      (by decide) (by decide)).1 rfl⟩

/-- C10: for every collection API state, every item returned by the
`articles` collection builder is also returned by the `sitemap` collection
builder — the sitemap queries the articles glob plus the pages glob and
applies the identical draft filter. -/
theorem articles_collection_subset_sitemap
    (api : List Eleventy.Item) (it : Eleventy.Item)
    (h : it ∈ Eleventy.articlesCollection api) :
    it ∈ Eleventy.sitemapCollection api := by
  simp [Eleventy.articlesCollection, Eleventy.sitemapCollection,
    Eleventy.getFilteredByGlob, List.mem_filter, Eleventy.Item.matchesGlob] at h ⊢
  tauto

/-- C10 witness: a concrete non-draft article is in `articles`, hence in
`sitemap`. -/
theorem articles_collection_subset_sitemap_witness :
    (⟨0, true, false, none⟩ : Eleventy.Item) ∈
      Eleventy.sitemapCollection [⟨0, true, false, none⟩] :=
  articles_collection_subset_sitemap [⟨0, true, false, none⟩]
    ⟨0, true, false, none⟩ (by decide)

/-- C3: for every document type `W`, parser, serialiser, five passes, and
content with a path ending in `.html`, the `html-transform` transform
applies the five passes strictly in declaration order — anchors, demos,
figure, images, prism — each completing before the next starts, each
receiving the document tree as mutated by all prior passes (and the
original raw content and path), and serialises the final tree. -/
theorem html_transform_pass_order {W : Type}
    (parseHTML : String → W) (render : W → String)
    (anchors demos figure images prism : W → String → String → W)
    (content path : String) (h : Eleventy.endsWith path ".html" = true) :
    Eleventy.htmlTransform parseHTML render
        [anchors, demos, figure, images, prism] content (some path)
      = render (prism (images (figure (demos (anchors
          (parseHTML content) content path) content path) content path)
            content path) content path) := by
  simp [Eleventy.htmlTransform, Eleventy.runPasses, h]

/-- C3 witness: the pass order observed on a concrete document type. -/
theorem html_transform_pass_order_witness :
    Eleventy.htmlTransform (fun s => s.length) (fun n => toString n)
        [fun w _ _ => w + 1, fun w _ _ => w * 2, fun w _ _ => w + 3,
         fun w _ _ => w * 5, fun w _ _ => w + 7] "abc" (some "index.html")
      = "62" :=
  (html_transform_pass_order (fun s => s.length) (fun n => toString n)
      (fun w _ _ => w + 1) (fun w _ _ => w * 2) (fun w _ _ => w + 3)
      (fun w _ _ => w * 5) (fun w _ _ => w + 7) "abc" "index.html"
      (by decide)).trans (by decide)

/-- C4: the CSS compile step returns nothing (no output file) for every
path outside the three-entry allow-list, and for an allow-listed path it
returns the content processed through the postcss chain (import inlining,
media-minmax, autoprefixing, minification), which receives the content
and the path. -/
theorem css_compile_allowlist (chain : String → String → String)
    (content path : String) :
    (path ∉ Eleventy.styles → Eleventy.cssCompile chain content path = none)
    ∧ (path ∈ Eleventy.styles →
        Eleventy.cssCompile chain content path = some (chain content path)) := by
  constructor <;> intro h <;> simp [Eleventy.cssCompile, List.contains, h]

/-- C4 witness: a non-allow-listed path is skipped; the allow-listed entry
point is processed through the chain. -/
theorem css_compile_allowlist_witness :
    Eleventy.cssCompile (fun c p => p ++ ":" ++ c) "a{}" "./src/styles/other.css"
        = none
    ∧ Eleventy.cssCompile (fun c p => p ++ ":" ++ c) "a{}" "./src/styles/index.css"
        = some "./src/styles/index.css:a{}" :=
  ⟨(css_compile_allowlist (fun c p => p ++ ":" ++ c) "a{}"
      "./src/styles/other.css").1 (by decide),
   ((css_compile_allowlist (fun c p => p ++ ":" ++ c) "a{}"
      "./src/styles/index.css").2 (by decide)).trans (by decide)⟩

/-- C5: the JS compile step produces the bundled, minified esbuild output
(of the entry-point path) only when the path equals
`./src/scripts/index.js`; for every other path it returns nothing. -/
theorem js_compile_single_entry (bundle : String → String)
    (content path : String) :
    (path ≠ "./src/scripts/index.js" →
        Eleventy.jsCompile bundle content path = none)
    ∧ (path = "./src/scripts/index.js" →
        Eleventy.jsCompile bundle content path = some (bundle path)) := by
  constructor <;> intro h <;> simp [Eleventy.jsCompile, h]

/-- C5 witness: a non-entry path is skipped; the entry point is bundled. -/
theorem js_compile_single_entry_witness :
    Eleventy.jsCompile (fun p => p ++ "!") "x" "./src/scripts/util.js" = none
    ∧ Eleventy.jsCompile (fun p => p ++ "!") "x" "./src/scripts/index.js"
        = some "./src/scripts/index.js!" :=
  ⟨(js_compile_single_entry (fun p => p ++ "!") "x" "./src/scripts/util.js").1
      (by decide),
   ((js_compile_single_entry (fun p => p ++ "!") "x" "./src/scripts/index.js").2
      rfl).trans (by decide)⟩

/-- C6: the `html-minify` transform hands the content to the minifier —
with collapseBooleanAttributes, collapseWhitespace, decodeEntities and
removeComments set and includeAutoGeneratedTags unset — exactly when the
given path ends in `.html`; for every other path, including a missing
path, it returns the content string unchanged. -/
theorem html_minify_only_html
    (minify : String → Eleventy.HtmlMinOptions → String)
    (content : String) (path : Option String) :
    (∀ p, path = some p → Eleventy.endsWith p ".html" = true →
        Eleventy.htmlMinifyTransform minify content path
          = minify content ⟨true, true, true, false, true⟩)
    ∧ (∀ p, path = some p → Eleventy.endsWith p ".html" = false →
        Eleventy.htmlMinifyTransform minify content path = content)
    ∧ (path = none →
        Eleventy.htmlMinifyTransform minify content path = content) := by
  refine ⟨?_, ?_, ?_⟩
  · rintro p rfl h
    simp [Eleventy.htmlMinifyTransform, h]
  · rintro p rfl h
    simp [Eleventy.htmlMinifyTransform, h]
  · rintro rfl
    simp [Eleventy.htmlMinifyTransform]

/-- C6 witness: an `.html` path is minified with the configured options; a
non-`.html` path passes through. -/
theorem html_minify_only_html_witness :
    Eleventy.htmlMinifyTransform (fun s o => if o.removeComments then s ++ "!" else s)
        "x" (some "a.html") = "x!"
    ∧ Eleventy.htmlMinifyTransform (fun s o => if o.removeComments then s ++ "!" else s)
        "x" (some "a.css") = "x" :=
  ⟨((html_minify_only_html (fun s o => if o.removeComments then s ++ "!" else s)
      "x" (some "a.html")).1 "a.html" rfl (by decide)).trans (by decide),
   (html_minify_only_html (fun s o => if o.removeComments then s ++ "!" else s)
      "x" (some "a.css")).2.1 "a.css" rfl (by decide)⟩

namespace Eleventy

/-- Dropping a leading whitespace run does not change the non-whitespace
characters of a character list. -/
theorem filter_notWs_dropWhile (l : List Char) :
    (l.dropWhile isWs).filter (fun c => !isWs c)
      = l.filter (fun c => !isWs c) := by
  induction l with
  | nil => rfl
  | cons c rest ih =>
    by_cases h : isWs c
    · simp [List.dropWhile_cons, h, ih]
    · simp [List.dropWhile_cons, h]

/-- The modelled XML minifier preserves the non-whitespace characters in
order: the reduction is whitespace-only. -/
theorem xmlminChars_lossless (l : List Char) :
    (xmlminChars l).filter (fun c => !isWs c)
      = l.filter (fun c => !isWs c) := by
  induction l using xmlminChars.induct with
  | case1 => rw [xmlminChars]
  | case2 c rest h ih =>
    rw [xmlminChars, if_pos h]
    simp only [Bool.and_eq_true, beq_iff_eq, decide_eq_true_eq] at h
    obtain ⟨hc, _⟩ := h
    subst hc
    have hgt : isWs '>' = false := rfl
    simp only [List.filter_cons, hgt, Bool.not_false, if_true, ih,
      filter_notWs_dropWhile]
  | case3 c rest h ih =>
    rw [xmlminChars, if_neg h]
    simp only [List.filter_cons, ih]

/-- The modelled XML minifier never lengthens its input. -/
theorem xmlminChars_length_le (l : List Char) :
    (xmlminChars l).length ≤ l.length := by
  induction l using xmlminChars.induct with
  | case1 => simp [xmlminChars]
  | case2 c rest h ih =>
    rw [xmlminChars, if_pos h]
    have := (List.dropWhile_sublist (l := rest) isWs).length_le
    simp only [List.length_cons]
    omega
  | case3 c rest h ih =>
    rw [xmlminChars, if_neg h]
    simp only [List.length_cons]
    omega

end Eleventy

/-- C7: for every build-time current year, the `dateShort` filter formats
a date whose year is the current calendar year with the month/day format
(no year) and a date from an earlier year with the long format including
the year; and `dateISO` on the date 2024-03-05 returns exactly
`2024-03-05`. -/
theorem dateShort_year_switch_and_dateISO (currentYear : Nat)
    (d : Eleventy.JSDate) :
    (d.year = currentYear →
        Eleventy.dateShort currentYear d = Eleventy.formatMonthDayEn d)
    ∧ (d.year < currentYear →
        Eleventy.dateShort currentYear d = Eleventy.formatLongEn d)
    ∧ Eleventy.dateISO ⟨2024, 3, 5⟩ = "2024-03-05" := by
  refine ⟨fun h => ?_, fun h => ?_, by decide⟩
  · rw [Eleventy.dateShort, if_neg]
    omega
  · rw [Eleventy.dateShort, if_pos h]

/-- C7 witness: concrete dates in and before a concrete current year. -/
theorem dateShort_year_switch_witness :
    Eleventy.dateShort 2026 ⟨2026, 3, 5⟩ = "March 5"
    ∧ Eleventy.dateShort 2026 ⟨2024, 3, 5⟩ = "March 5, 2024" :=
  ⟨((dateShort_year_switch_and_dateISO 2026 ⟨2026, 3, 5⟩).1 rfl).trans
      (by decide),
   ((dateShort_year_switch_and_dateISO 2026 ⟨2024, 3, 5⟩).2.1
      (by decide)).trans (by decide)⟩

/-- C8: the `markdown` filter on `**x**` produces the emphasis markup
wrapped in a paragraph element; `markdownInline` on `**x**` produces the
same emphasis markup with no enclosing block element; `markdownRemove` on
`**x** and _y_` yields the plain text `x and y` with no residual Markdown
syntax. -/
theorem markdown_filters_emphasis :
    Eleventy.markdownInline "**x**" = "<strong>x</strong>"
    ∧ Eleventy.markdownRender "**x**" = "<p><strong>x</strong></p>\n"
    ∧ Eleventy.markdownRemove "**x** and _y_" = "x and y" :=
  ⟨by decide, by decide, by decide⟩

/-- C9: the `xmlMin` transform applies the minifier exactly when the given
path ends in `.xml` and otherwise returns the content unchanged; and the
minification is a lossless whitespace-only reduction — the non-whitespace
characters are preserved in order and the output is never longer than the
input. -/
theorem xmlMin_only_xml_and_lossless (content : String)
    (path : Option String) :
    (∀ p, path = some p → Eleventy.endsWith p ".xml" = true →
        Eleventy.xmlMinTransform Eleventy.xmlmin content path
          = Eleventy.xmlmin content)
    ∧ (∀ p, path = some p → Eleventy.endsWith p ".xml" = false →
        Eleventy.xmlMinTransform Eleventy.xmlmin content path = content)
    ∧ (path = none →
        Eleventy.xmlMinTransform Eleventy.xmlmin content path = content)
    ∧ (Eleventy.xmlmin content).data.filter (fun c => !Eleventy.isWs c)
        = content.data.filter (fun c => !Eleventy.isWs c)
    ∧ (Eleventy.xmlmin content).length ≤ content.length := by
  refine ⟨?_, ?_, ?_, ?_, ?_⟩
  · rintro p rfl h
    simp [Eleventy.xmlMinTransform, h]
  · rintro p rfl h
    simp [Eleventy.xmlMinTransform, h]
  · rintro rfl
    simp [Eleventy.xmlMinTransform]
  · exact Eleventy.xmlminChars_lossless content.data
  · exact Eleventy.xmlminChars_length_le content.data

/-- C9 witness: an `.xml` path is minified (whitespace between tags
dropped), a non-`.xml` path passes through. -/
theorem xmlMin_only_xml_witness :
    Eleventy.xmlMinTransform Eleventy.xmlmin "<a>\n  <b> x </b>\n</a>"
        (some "feed.xml") = "<a><b> x </b></a>"
    ∧ Eleventy.xmlMinTransform Eleventy.xmlmin "<a> </a>" (some "page.html")
        = "<a> </a>" :=
  ⟨((xmlMin_only_xml_and_lossless "<a>\n  <b> x </b>\n</a>"
      (some "feed.xml")).1 "feed.xml" rfl (by decide)).trans
      (by simp [Eleventy.xmlmin, Eleventy.xmlminChars, Eleventy.isWs,
        List.dropWhile]),
   (xmlMin_only_xml_and_lossless "<a> </a>" (some "page.html")).2.1
      "page.html" rfl (by decide)⟩
